import Mathlib

/-!
Shallow embedding of the LibreChat custom token-usage telemetry code:

* `api/server/routes/custom/transactions.js` — the transaction list route
  (`GET /api/user/transactions`) and the usage summary route
  (`GET /api/user/transactions/summary`), including the MongoDB aggregation
  pipelines for prompt/completion token totals, the per-model breakdown and
  the daily usage series.
* `client/src/components/Chat/Messages/custom/MessageTokens.tsx` — the
  cumulative-token computation over the flattened message tree and the
  token-display preference read.
* `StreamingStats` (two variants of the component exist in the repository) —
  the sliding-window tokens-per-second estimator and the finalize-on-completion
  transition.

Numbers follow the source: token magnitudes are natural numbers (every summand
is taken through an absolute value before summation), timestamps are integer
milliseconds, and real-valued durations/rates are rationals.
-/

namespace LibreChat

/-- A ledger transaction record, after `$match`: the fields the aggregation
pipelines and the list route read.  Optional fields model MongoDB documents
where the field may be missing (`$ifNull` supplies the default). -/
structure Tx where
  tokenType : String
  rawAmount : Int
  inputTokens : Option Int
  writeTokens : Option Int
  readTokens : Option Int
  tokenValue : Option Int
  model : Option String
  createdAt : Int
deriving DecidableEq, Repr

/-- The structured prompt-token sum of one record:
`$add [{$abs {$ifNull [inputTokens, 0]}}, …]` for the three structured fields. -/
def structuredSum (t : Tx) : Nat :=
  (t.inputTokens.getD 0).natAbs + (t.writeTokens.getD 0).natAbs +
    (t.readTokens.getD 0).natAbs

/-- The `promptTokens` accumulator of the summary `$group` stage: for each
record, the structured sum if `tokenType = 'prompt'`, else 0, summed. -/
def promptTokensStructured (recs : List Tx) : Nat :=
  (recs.map (fun t => if t.tokenType = "prompt" then structuredSum t else 0)).sum

/-- The `promptTokensRaw` accumulator of the summary `$group` stage: `$abs
rawAmount` for prompt records whose three structured fields are each
(`$ifNull`-defaulted) equal to 0, else 0, summed. -/
def promptTokensRaw (recs : List Tx) : Nat :=
  (recs.map (fun t =>
    if t.tokenType = "prompt" ∧ t.inputTokens.getD 0 = 0 ∧
        t.writeTokens.getD 0 = 0 ∧ t.readTokens.getD 0 = 0 then
      t.rawAmount.natAbs
    else 0)).sum

/-- The final `promptTokens` of the response: the route selects
`rawSummary.promptTokens > 0 ? rawSummary.promptTokens : rawSummary.promptTokensRaw`
— a single, ledger-wide choice between the two accumulators. -/
def promptTokensFinal (recs : List Tx) : Nat :=
  if promptTokensStructured recs > 0 then promptTokensStructured recs
  else promptTokensRaw recs

/-- The `completionTokens` accumulator: `$abs rawAmount` over completion
records. -/
def completionTokens (recs : List Tx) : Nat :=
  (recs.map (fun t =>
    if t.tokenType = "completion" then t.rawAmount.natAbs else 0)).sum

/-- Sum of `|rawAmount|` over every prompt record, regardless of the
structured fields.  Used to state what the per-ledger fallback amounts to. -/
def sumRawPrompt (recs : List Tx) : Nat :=
  (recs.map (fun t =>
    if t.tokenType = "prompt" then t.rawAmount.natAbs else 0)).sum

/-- Modelled from the spec: the per-record tiered rule the spec ascribes to
the aggregator — each prompt record contributes its structured sum when that
sum is positive and `|rawAmount|` otherwise, the choice made record by
record. -/
def claimPromptTokens (recs : List Tx) : Nat :=
  (recs.map (fun t =>
    if t.tokenType = "prompt" then
      (if structuredSum t > 0 then structuredSum t else t.rawAmount.natAbs)
    else 0)).sum

/-- The `period` switch of the summary route: `day`, `week`, `month` subtract
the corresponding number of milliseconds from `now`; `all` sets no lower
bound; any other string takes the `default` branch, which is the same
30-day subtraction as `month`. -/
def periodStartDate (period : String) (now : Int) : Option Int :=
  if period = "day" then some (now - 24 * 60 * 60 * 1000)
  else if period = "week" then some (now - 7 * 24 * 60 * 60 * 1000)
  else if period = "month" then some (now - 30 * 24 * 60 * 60 * 1000)
  else if period = "all" then none
  else some (now - 30 * 24 * 60 * 60 * 1000)

/-- The `$match` stage of the summary pipelines restricted to the time
window: with a start date it keeps records with `createdAt ≥ startDate`
(`$gte`); without one it keeps everything.  The user filter is not modelled:
`recs` stands for the authenticated user's records. -/
def matchedRecords (period : String) (now : Int) (recs : List Tx) : List Tx :=
  match periodStartDate period now with
  | none => recs
  | some sd => recs.filter (fun t => sd ≤ t.createdAt)

/-- One `$group` result of the model-breakdown pipeline: `_id` is the
(possibly absent) model, `tokens` and `count` the accumulators. -/
structure BreakdownEntry where
  model : Option String
  tokens : Nat
  count : Nat
deriving DecidableEq, Repr

/-- The per-record `tokens` term of the model-breakdown `$group`: prompt
records contribute their structured sum when it is `> 0` and `|rawAmount|`
otherwise; every other record contributes `|rawAmount|`. -/
def breakdownTokens (t : Tx) : Nat :=
  if t.tokenType = "prompt" then
    (if structuredSum t > 0 then structuredSum t else t.rawAmount.natAbs)
  else t.rawAmount.natAbs

/-- The distinct `_id` keys of the model-breakdown `$group`, in first-arrival
order of the grouping. -/
def modelKeys (recs : List Tx) : List (Option String) :=
  (recs.map (fun t => t.model)).dedup

/-- The group document produced for one model key. -/
def breakdownGroup (recs : List Tx) (k : Option String) : BreakdownEntry :=
  let grp := recs.filter (fun t => t.model = k)
  ⟨k, (grp.map breakdownTokens).sum, grp.length⟩

/-- Ordering used by the `$sort: \x7b tokens: -1 \x7d` stage. -/
def tokensGE (a b : BreakdownEntry) : Prop := b.tokens ≤ a.tokens

instance : DecidableRel tokensGE := fun a b => by
  unfold tokensGE; infer_instance

instance : IsTotal BreakdownEntry tokensGE :=
  ⟨fun a b => (Nat.le_total b.tokens a.tokens).imp id id⟩

instance : IsTrans BreakdownEntry tokensGE :=
  ⟨fun _ _ _ h h' => Nat.le_trans h' h⟩

/-- The model-breakdown pipeline: `$group` by model, `$sort \x7b tokens: -1 \x7d`,
`$limit 10`. -/
def modelBreakdown (recs : List Tx) : List BreakdownEntry :=
  (((modelKeys recs).map (breakdownGroup recs)).insertionSort tokensGE).take 10

/-- One `$group` result of the daily-usage pipeline.  `day` stands for the
`$dateToString %Y-%m-%d` UTC day key of `createdAt`, represented as the UTC
day index (floor division of the millisecond timestamp by one day), which is
order-isomorphic to the date string. -/
structure DailyEntry where
  day : Int
  tokens : Nat
  cost : Nat
deriving DecidableEq, Repr

/-- UTC day index of a millisecond timestamp (stands for `%Y-%m-%d`). -/
def dayKey (ms : Int) : Int := ms.fdiv 86400000

/-- Ordering used by the daily pipeline's `$sort: \x7b _id: 1 \x7d` stage. -/
def dayLE (a b : DailyEntry) : Prop := a.day ≤ b.day

instance : DecidableRel dayLE := fun a b => by
  unfold dayLE; infer_instance

instance : IsTotal DailyEntry dayLE := ⟨fun a b => Int.le_total a.day b.day⟩

instance : IsTrans DailyEntry dayLE := ⟨fun _ _ _ h h' => Int.le_trans h h'⟩

/-- The daily-usage pipeline: `$group` by day of `createdAt` with
`tokens = $sum $abs rawAmount` and `cost = $sum $abs tokenValue` (a missing
`tokenValue` contributes nothing to `$sum`), then `$sort` ascending by key. -/
def dailyUsage (recs : List Tx) : List DailyEntry :=
  let keys := (recs.map (fun t => dayKey t.createdAt)).dedup
  (keys.map (fun k =>
    let grp := recs.filter (fun t => dayKey t.createdAt = k)
    DailyEntry.mk k (grp.map (fun t => t.rawAmount.natAbs)).sum
      (grp.map (fun t => (t.tokenValue.getD 0).natAbs)).sum)).insertionSort dayLE

/-- The JSON body the summary route sends: the `summary` object spread into
the response together with `period`, `modelBreakdown` and `dailyUsage`. -/
structure SummaryResponse where
  totalTokens : Nat
  promptTokens : Nat
  completionTokens : Nat
  transactionCount : Nat
  period : String
  modelBreakdown : List BreakdownEntry
  dailyUsage : List DailyEntry
deriving DecidableEq, Repr

/-- The summary route on a ledger snapshot `recs` of the user's records. -/
def summaryResponse (period : String) (now : Int) (recs : List Tx) :
    SummaryResponse :=
  let m := matchedRecords period now recs
  { totalTokens := promptTokensFinal m + completionTokens m
    promptTokens := promptTokensFinal m
    completionTokens := completionTokens m
    transactionCount := m.length
    period := period
    modelBreakdown := modelBreakdown m
    dailyUsage := dailyUsage m }

/-- The JSON keys of the summary response body, exactly as the route builds
it (`...summary`, then `period`, `modelBreakdown`, `dailyUsage`). -/
def summaryResponseKeys : List String :=
  ["totalTokens", "promptTokens", "completionTokens", "transactionCount",
    "period", "modelBreakdown", "dailyUsage"]

/-- The JSON keys of one model-breakdown entry, exactly as its `$group`
stage produces them. -/
def breakdownEntryKeys : List String := ["_id", "tokens", "count"]

/-- The JSON keys of one daily-usage entry, exactly as its `$group` stage
produces them. -/
def dailyUsageEntryKeys : List String := ["_id", "tokens", "cost"]

/-- Ordering of the list route's `.sort(\x7b createdAt: -1 \x7d)`: descending by
`createdAt`, ties left in a stable order. -/
def createdGE (a b : Tx) : Prop := b.createdAt ≤ a.createdAt

instance : DecidableRel createdGE := fun a b => by
  unfold createdGE; infer_instance

instance : IsTotal Tx createdGE := ⟨fun a b => Int.le_total b.createdAt a.createdAt⟩

instance : IsTrans Tx createdGE := ⟨fun _ _ _ h h' => Int.le_trans h' h⟩

/-- The sort stage of the list route. -/
def sortByCreatedAtDesc (recs : List Tx) : List Tx :=
  recs.insertionSort createdGE

/-- MongoDB `cursor.limit(n)` semantics: `n = 0` means no limit at all;
a nonzero `n` caps the result at `|n|` documents (a negative limit behaves
as its magnitude, closing the cursor after one batch). -/
def applyLimit (l : Int) (recs : List Tx) : List Tx :=
  if l = 0 then recs else recs.take l.natAbs

/-- The list route on a ledger snapshot `recs` of the user's matching
records: sort descending by `createdAt`, `.skip(offset)`,
`.limit(min(limit, 1000))`, and `countDocuments` for `total`.  MongoDB
rejects a negative skip, which the route surfaces as a query failure
(`none`). -/
def listTransactions (recs : List Tx) (limit offset : Int) :
    Option (List Tx × Nat) :=
  if offset < 0 then none
  else
    some ((applyLimit (min limit 1000) ((sortByCreatedAtDesc recs).drop offset.toNat)),
      recs.length)

/-- JavaScript `Math.round` on a rational: round half toward positive
infinity. -/
def jsRound (q : ℚ) : Int := ⌊q + 1 / 2⌋

/-- `estimateTokens` of `StreamingStats`: 0 for empty text, else
`Math.ceil(text.length / 4)`. -/
def estimateTokens (textLen : Nat) : Nat :=
  if textLen = 0 then 0 else (textLen + 3) / 4

/-- One entry of `tokenHistoryRef`: a sample time in milliseconds and the
token estimate taken then. -/
structure Sample where
  time : Int
  tokens : Nat
deriving DecidableEq, Repr

/-- The push-and-trim prefix of `calculateTps`: append `\x7b now, tokens \x7d` to
the history, then keep only samples with `time > now - 2000`. -/
def pushSample (history : List Sample) (now : Int) (currentTokens : Nat) :
    List Sample :=
  (history ++ [Sample.mk now currentTokens]).filter (fun s => now - 2000 < s.time)

/-- The rate part of `calculateTps` on the trimmed history (identical in
both variants of `StreamingStats`): 0 with fewer than 2 samples; otherwise
`timeDiff = (newest.time - oldest.time) / 1000`, 0 when `timeDiff ≤ 0`, else
`Math.round(tokenDiff / timeDiff)` where
`tokenDiff = newest.tokens - oldest.tokens`. -/
def tpsOf (h : List Sample) : Int :=
  if h.length < 2 then 0
  else
    let oldest := h.headD ⟨0, 0⟩
    let newest := h.getLastD ⟨0, 0⟩
    let timeDiff : ℚ := ((newest.time - oldest.time : Int) : ℚ) / 1000
    let tokenDiff : Int := (newest.tokens : Int) - (oldest.tokens : Int)
    if timeDiff ≤ 0 then 0
    else jsRound ((tokenDiff : ℚ) / timeDiff)

/-- `calculateTps`: push the current sample, trim the window, and compute
the instantaneous rate; returns the rate and the updated history ref. -/
def calculateTps (history : List Sample) (now : Int) (currentTokens : Nat) :
    Int × List Sample :=
  let h := pushSample history now currentTokens
  (tpsOf h, h)

/-- Modelled from the spec: the rate the spec ascribes to the window — 0
with fewer than 2 samples, otherwise the rounded quotient with negative or
non-finite (zero time difference) results clamped to 0. -/
def claimTps (h : List Sample) : Int :=
  if h.length < 2 then 0
  else
    let oldest := h.headD ⟨0, 0⟩
    let newest := h.getLastD ⟨0, 0⟩
    let timeDiff : ℚ := ((newest.time - oldest.time : Int) : ℚ) / 1000
    let tokenDiff : Int := (newest.tokens : Int) - (oldest.tokens : Int)
    if timeDiff = 0 then 0
    else max 0 (jsRound ((tokenDiff : ℚ) / timeDiff))

/-- The duration computed by the completion effects:
`startTimeRef.current ? (endTime - startTimeRef.current) / 1000 : 0`,
in seconds.  The ternary tests JavaScript truthiness, so both a `null` ref
and a recorded start time of exactly 0 (falsy) yield 0. -/
def durationOf (startTime : Option Int) (endTime : Int) : ℚ :=
  match startTime with
  | some s => if s = 0 then 0 else ((endTime - s : Int) : ℚ) / 1000
  | none => 0

/-- The published final statistics of variant 1 of `StreamingStats`
(`\x7b tps, totalTokens, duration \x7d`). -/
structure FinalStatsV1 where
  tps : Int
  totalTokens : Nat
  duration : ℚ
deriving DecidableEq, Repr

/-- The published final statistics of variant 2 (`\x7b tps, totalTokens \x7d`). -/
structure FinalStatsV2 where
  tps : Int
  totalTokens : Nat
deriving DecidableEq, Repr

/-- The completion effect of variant 1: it runs only when streaming stops
with non-empty text, and publishes `finalStats` exactly when
`duration > 0.5 && totalTokens > 0`. -/
def completeV1 (startTime : Option Int) (endTime : Int) (textLen : Nat) :
    Option FinalStatsV1 :=
  if textLen = 0 then none
  else
    let duration := durationOf startTime endTime
    let totalTokens := estimateTokens textLen
    if 1 / 2 < duration ∧ 0 < totalTokens then
      some ⟨jsRound ((totalTokens : ℚ) / duration), totalTokens, duration⟩
    else none

/-- The completion effect of variant 2: it publishes `finalStats` exactly
when `totalTime > 0 && totalTokens > 0` — there is no half-second floor. -/
def completeV2 (startTime : Option Int) (endTime : Int) (textLen : Nat) :
    Option FinalStatsV2 :=
  let totalTime := durationOf startTime endTime
  let totalTokens := estimateTokens textLen
  if 0 < totalTime ∧ 0 < totalTokens then
    some ⟨jsRound ((totalTokens : ℚ) / totalTime), totalTokens⟩
  else none

/-- A message of the nested message tree `MessageTokens` consumes: id, an
optional `tokenCount`, and child messages. -/
inductive Msg where
  | mk (messageId : String) (tokenCount : Option Int) (children : List Msg)

/-- The message id field. -/
def Msg.msgId : Msg → String
  | .mk i _ _ => i

/-- The optional token count field. -/
def Msg.tokCount : Msg → Option Int
  | .mk _ c _ => c

/-- The children field. -/
def Msg.kids : Msg → List Msg
  | .mk _ _ cs => cs

mutual

/-- `flattenMessages`: depth-first preorder traversal of the message
forest (`traverse` pushes each message, then recurses into its children). -/
def flattenMessages : List Msg → List Msg
  | [] => []
  | m :: rest => flattenOne m ++ flattenMessages rest

/-- One step of the traversal: the message itself followed by its flattened
children. -/
def flattenOne : Msg → List Msg
  | .mk i c cs => .mk i c cs :: flattenMessages cs

end

/-- The loop body of `calculateCumulativeTokens` on the flattened list: add
`tokenCount` when it is truthy, stop after the first message whose
`messageId` equals the target. -/
def cumLoop (tid : String) : List Msg → Int
  | [] => 0
  | m :: rest =>
    (match m.tokCount with
      | none => 0
      | some t => if t = 0 then 0 else t) +
    (if m.msgId = tid then 0 else cumLoop tid rest)

/-- `calculateCumulativeTokens`: 0 for a missing/empty list, else the loop
over the flattened tree. -/
def calculateCumulativeTokens (msgs : List Msg) (currentMessageId : String) :
    Int :=
  match msgs with
  | [] => 0
  | l => cumLoop currentMessageId (flattenMessages l)

/-- A message's token contribution: absent counts as 0 (and a stored 0 adds
0), i.e. `getD 0`. -/
def tokenCountD (m : Msg) : Int := m.tokCount.getD 0

/-- The `showTokens` initializer shared by `MessageTokens`, `StreamingStats`
and `TokenDisplayToggle`: when a window exists,
`localStorage.getItem(KEY) !== 'false'` (an absent key reads as `null`);
without a window the default is `true`. -/
def showTokensInit (hasWindow : Bool) (stored : Option String) : Bool :=
  if hasWindow then decide (stored ≠ some "false") else true

/-! ## Theorems -/

/-- C10: the token-telemetry display preference reads as enabled exactly when
the stored value is not the string `'false'`; an absent key, `'off'` or `'0'`
all read as enabled, and with no window the default is enabled. -/
theorem showTokens_enabled_iff_not_false :
    (∀ stored : Option String,
      showTokensInit true stored = true ↔ stored ≠ some "false") ∧
    showTokensInit true none = true ∧
    showTokensInit true (some "off") = true ∧
    showTokensInit true (some "0") = true ∧
    showTokensInit true (some "false") = false ∧
    showTokensInit false none = true := by
  refine ⟨fun stored => ?_, rfl, by decide, by decide, by decide, rfl⟩
  simp [showTokensInit]

/-- The loop of `calculateCumulativeTokens` computes the `tokenCount` sum of
the prefix of the list up to and including the first id match (`findIdx`
returns the length when nothing matches, so the whole list is summed then). -/
theorem cumLoop_eq_prefix_sum (tid : String) (l : List Msg) :
    cumLoop tid l =
      ((l.take (l.findIdx (fun m => m.msgId == tid) + 1)).map tokenCountD).sum := by
  induction l with
  | nil => simp [cumLoop]
  | cons m rest ih =>
    have hcontrib :
        (match m.tokCount with
          | none => (0 : Int)
          | some t => if t = 0 then 0 else t) = tokenCountD m := by
      unfold tokenCountD
      cases h : m.tokCount with
      | none => simp
      | some t =>
        by_cases ht : t = 0 <;> simp [ht]
    rw [cumLoop, hcontrib, List.findIdx_cons]
    by_cases hm : m.msgId = tid
    · simp [hm]
    · have hb : (m.msgId == tid) = false := by
        simp [hm]
      simp [hb, hm, ih, List.take_succ_cons]

/-- C9: the cumulative token count for a message equals the sum of
`tokenCount` (absent counting as 0) over the depth-first preorder flattening
of the message tree, taken up to and including the first message whose
`messageId` matches; when no message matches, the sum runs over the entire
flattened tree. -/
theorem calculateCumulativeTokens_spec (msgs : List Msg) (tid : String) :
    calculateCumulativeTokens msgs tid =
      (((flattenMessages msgs).take
        ((flattenMessages msgs).findIdx (fun m => m.msgId == tid) + 1)).map
          tokenCountD).sum := by
  cases msgs with
  | nil => simp [calculateCumulativeTokens, flattenMessages]
  | cons m rest => exact cumLoop_eq_prefix_sum tid (flattenMessages (m :: rest))

/-- C8: a `period` value outside `day`, `week`, `month`, `all` resolves the
window exactly as `month` does — a lower bound 30 days before `now` — and the
summary it yields is the `month` summary with the unknown period echoed
back; the route does not fail. -/
theorem unknown_period_behaves_as_month (p : String) (now : Int)
    (recs : List Tx) (hd : p ≠ "day") (hw : p ≠ "week") (hm : p ≠ "month")
    (ha : p ≠ "all") :
    periodStartDate p now = some (now - 30 * 24 * 60 * 60 * 1000) ∧
    summaryResponse p now recs =
      { summaryResponse "month" now recs with period := p } := by
  have h1 : periodStartDate p now = some (now - 30 * 24 * 60 * 60 * 1000) := by
    simp [periodStartDate, hd, hw, hm, ha]
  have hmn : periodStartDate "month" now = some (now - 30 * 24 * 60 * 60 * 1000) := by
    simp [periodStartDate]
  have h2 : matchedRecords p now recs = matchedRecords "month" now recs := by
    unfold matchedRecords
    rw [h1, hmn]
  exact ⟨h1, by simp [summaryResponse, h2]⟩

/-- Witness for C8 at the malformed period `'bogus'`. -/
theorem unknown_period_witness :
    periodStartDate "bogus" 0 = some (0 - 30 * 24 * 60 * 60 * 1000) ∧
    summaryResponse "bogus" 0 [] =
      { summaryResponse "month" 0 [] with period := "bogus" } :=
  unknown_period_behaves_as_month "bogus" 0 [] (by decide) (by decide)
    (by decide) (by decide)

/-- A concrete ledger record used to evaluate theorems on concrete inputs. -/
def tx0 : Tx := ⟨"completion", -4, none, none, none, some 2, some "gpt", 0⟩

/-- C6: the list route with `limit = 5`, `offset = 5` over a 12-record
matching set returns exactly records 6 through 10 of the descending
`createdAt` order, and `total = 12` independently of the pagination. -/
theorem list_pagination_window (recs : List Tx) (h12 : recs.length = 12) :
    listTransactions recs 5 5 =
      some (((sortByCreatedAtDesc recs).drop 5).take 5, 12) ∧
    (((sortByCreatedAtDesc recs).drop 5).take 5).length = 5 ∧
    ∀ i : Nat, i < 5 →
      (((sortByCreatedAtDesc recs).drop 5).take 5)[i]? =
        (sortByCreatedAtDesc recs)[5 + i]? := by
  have hlen : (sortByCreatedAtDesc recs).length = 12 := by
    simp [sortByCreatedAtDesc, List.length_insertionSort, h12]
  refine ⟨?_, ?_, ?_⟩
  · simp [listTransactions, applyLimit, h12]
  · simp [List.length_take, List.length_drop, hlen]
  · intro i hi
    rw [List.getElem?_take, if_pos hi, List.getElem?_drop]

/-- Witness for C6 on a concrete 12-record ledger. -/
theorem list_pagination_window_witness :
    listTransactions (List.replicate 12 tx0) 5 5 =
      some (((sortByCreatedAtDesc (List.replicate 12 tx0)).drop 5).take 5, 12) ∧
    (((sortByCreatedAtDesc (List.replicate 12 tx0)).drop 5).take 5).length = 5 ∧
    ∀ i : Nat, i < 5 →
      (((sortByCreatedAtDesc (List.replicate 12 tx0)).drop 5).take 5)[i]? =
        (sortByCreatedAtDesc (List.replicate 12 tx0))[5 + i]? :=
  list_pagination_window (List.replicate 12 tx0) (by simp)

/-- Sum of an indicator over a key list counts the key's occurrences. -/
theorem sum_indicator_count {β : Type} [DecidableEq β] (ks : List β) (b : β) :
    (ks.map (fun k => if b = k then 1 else 0)).sum = ks.count b := by
  induction ks with
  | nil => simp
  | cons k ks ih =>
    by_cases hk : b = k
    · subst hk
      simp [List.count_cons, ih, Nat.add_comm]
    · have hk2 : (k == b) = false := beq_eq_false_iff_ne.mpr (fun h => hk h.symm)
      simp [hk, hk2, List.count_cons, ih]

/-- Splitting a list by a complete, duplicate-free list of keys partitions
it: the group sizes add up to the list's length. -/
theorem sum_group_lengths {α β : Type} [DecidableEq β] (f : α → β)
    (ks : List β) (hnd : ks.Nodup) (l : List α) (hmem : ∀ a ∈ l, f a ∈ ks) :
    (ks.map (fun k => (l.filter (fun a => f a = k)).length)).sum = l.length := by
  induction l with
  | nil => simp
  | cons a l ih =>
    have ihl := ih (fun x hx => hmem x (List.mem_cons_of_mem a hx))
    have hsplit : ∀ k : β, ((a :: l).filter (fun x => f x = k)).length =
        (if f a = k then 1 else 0) + (l.filter (fun x => f x = k)).length := by
      intro k
      by_cases hk : f a = k
      · simp [List.filter_cons, hk, Nat.add_comm]
      · simp [List.filter_cons, hk]
    calc (ks.map (fun k => ((a :: l).filter (fun x => f x = k)).length)).sum
        = (ks.map (fun k => (if f a = k then 1 else 0) +
            (l.filter (fun x => f x = k)).length)).sum := by
          simp only [hsplit]
      _ = (ks.map (fun k => if f a = k then 1 else 0)).sum +
            (ks.map (fun k => (l.filter (fun x => f x = k)).length)).sum :=
          List.sum_map_add
      _ = 1 + l.length := by
          rw [sum_indicator_count, ihl,
            List.count_eq_one_of_mem hnd (hmem a (List.mem_cons_self a l))]
      _ = (a :: l).length := by simp [Nat.add_comm]

/-- C7: the model breakdown has at most 10 entries, its `tokens` values are
sorted non-increasing, and its `count` fields sum to at most the number of
matched records. -/
theorem modelBreakdown_shape (recs : List Tx) :
    (modelBreakdown recs).length ≤ 10 ∧
    ((modelBreakdown recs).map (fun e => e.tokens)).Sorted (fun a b => b ≤ a) ∧
    ((modelBreakdown recs).map (fun e => e.count)).sum ≤ recs.length := by
  have hsorted :
      (((modelKeys recs).map (breakdownGroup recs)).insertionSort
        tokensGE).Sorted tokensGE :=
    List.sorted_insertionSort tokensGE _
  refine ⟨List.length_take_le _ _, ?_, ?_⟩
  · have hp : (modelBreakdown recs).Pairwise tokensGE :=
      hsorted.sublist (List.take_sublist _ _)
    rw [List.Sorted, List.pairwise_map]
    exact hp
  · have hperm :
        List.Perm (((modelKeys recs).map (breakdownGroup recs)).insertionSort
          tokensGE) ((modelKeys recs).map (breakdownGroup recs)) :=
      List.perm_insertionSort _ _
    have hsumfull :
        ((((modelKeys recs).map (breakdownGroup recs)).insertionSort
          tokensGE).map (fun e => e.count)).sum =
          (((modelKeys recs).map (breakdownGroup recs)).map
            (fun e => e.count)).sum :=
      (hperm.map _).sum_eq
    have htake : ((modelBreakdown recs).map (fun e => e.count)).sum ≤
        ((((modelKeys recs).map (breakdownGroup recs)).insertionSort
          tokensGE).map (fun e => e.count)).sum := by
      conv_rhs =>
        rw [← List.take_append_drop 10
          (((modelKeys recs).map (breakdownGroup recs)).insertionSort tokensGE)]
      rw [List.map_append, List.sum_append]
      exact Nat.le_add_right _ _
    have hgroups :
        (((modelKeys recs).map (breakdownGroup recs)).map
          (fun e => e.count)).sum = recs.length := by
      rw [List.map_map]
      have hcomp : ((fun e : BreakdownEntry => e.count) ∘ breakdownGroup recs) =
          fun k => (recs.filter (fun t => t.model = k)).length := rfl
      rw [hcomp]
      exact sum_group_lengths (fun t : Tx => t.model) (modelKeys recs)
        (List.nodup_dedup _) recs
        (fun t ht => List.mem_dedup.mpr (List.mem_map_of_mem _ ht))
    calc ((modelBreakdown recs).map (fun e => e.count)).sum
        ≤ _ := htake
      _ = _ := hsumfull
      _ = recs.length := hgroups

/-- A prompt record carrying a structured token breakdown. -/
def structuredPromptTx : Tx := ⟨"prompt", -10, some 10, none, none, none, some "m", 0⟩

/-- A prompt record carrying only a raw amount (pre-structured data shape). -/
def rawPromptTx : Tx := ⟨"prompt", -7, none, none, none, none, some "m", 0⟩

/-- A ledger holding both shapes of prompt record at once. -/
def mixedLedger : List Tx := [structuredPromptTx, rawPromptTx]

/-- C1 counterexample: on a mixed ledger with one structured prompt record
(10 structured tokens) and one raw-only prompt record (`|rawAmount| = 7`),
the route reports 10 prompt tokens, not the per-record total 17 — the
raw-only record is dropped because the fallback is a single ledger-wide
switch. -/
theorem prompt_fallback_not_per_record :
    promptTokensFinal mixedLedger = 10 ∧
    claimPromptTokens mixedLedger = 17 ∧
    promptTokensFinal mixedLedger ≠ claimPromptTokens mixedLedger := by
  decide

/-- C1 (amended): `promptTokens` is a ledger-wide two-tier choice — when any
prompt record has a positive structured sum, it is the sum of structured
sums over all prompt records (raw-only prompt records contribute nothing);
only when every prompt record's structured sum is zero does it become the
sum of `|rawAmount|` over all prompt records. -/
theorem promptTokens_global_fallback (recs : List Tx) :
    ((∃ t ∈ recs, t.tokenType = "prompt" ∧ 0 < structuredSum t) →
      promptTokensFinal recs = promptTokensStructured recs) ∧
    ((∀ t ∈ recs, t.tokenType = "prompt" → structuredSum t = 0) →
      promptTokensFinal recs = sumRawPrompt recs) := by
  constructor
  · rintro ⟨t, ht, htp, hpos⟩
    have hpos2 : 0 < promptTokensStructured recs := by
      by_contra hcon
      have h0 : promptTokensStructured recs = 0 := by omega
      rw [promptTokensStructured, List.sum_eq_zero_iff] at h0
      have := h0 _ (List.mem_map_of_mem _ ht)
      rw [if_pos htp] at this
      omega
    simp [promptTokensFinal, hpos2]
  · intro hall
    have h0 : promptTokensStructured recs = 0 := by
      rw [promptTokensStructured, List.sum_eq_zero_iff]
      intro x hx
      obtain ⟨t, ht, rfl⟩ := List.mem_map.mp hx
      by_cases htp : t.tokenType = "prompt"
      · simp [htp, hall t ht htp]
      · simp [htp]
    have hraw : promptTokensRaw recs = sumRawPrompt recs := by
      rw [promptTokensRaw, sumRawPrompt]
      congr 1
      apply List.map_congr_left
      intro t ht
      by_cases htp : t.tokenType = "prompt"
      · have hz := hall t ht htp
        have habs : (t.inputTokens.getD 0).natAbs = 0 ∧
            (t.writeTokens.getD 0).natAbs = 0 ∧
            (t.readTokens.getD 0).natAbs = 0 := by
          unfold structuredSum at hz
          omega
        have hi1 := Int.natAbs_eq_zero.mp habs.1
        have hi2 := Int.natAbs_eq_zero.mp habs.2.1
        have hi3 := Int.natAbs_eq_zero.mp habs.2.2
        simp [htp, hi1, hi2, hi3]
      · simp [htp]
    simp [promptTokensFinal, h0, hraw]

/-- Witness for C1 (amended): with a structured record present the
structured total wins; on a raw-only ledger the raw fallback applies. -/
theorem promptTokens_global_fallback_witness :
    promptTokensFinal mixedLedger = promptTokensStructured mixedLedger ∧
    promptTokensFinal [rawPromptTx] = sumRawPrompt [rawPromptTx] :=
  ⟨(promptTokens_global_fallback mixedLedger).1 (by decide),
    (promptTokens_global_fallback [rawPromptTx]).2 (by decide)⟩

/-- C2 counterexample: the summary response body carries no `totalCost` key,
and model-breakdown entries carry no `cost` key. -/
theorem summary_has_no_totalCost :
    "totalCost" ∉ summaryResponseKeys ∧ "cost" ∉ breakdownEntryKeys := by
  decide

/-- C2 (amended): the summary response omits `totalCost`, model-breakdown
entries omit `cost`, and the `Σ|tokenValue|` cost figure appears only in the
daily-usage series, where each entry's `cost` sums `|tokenValue|` over its
day group. -/
theorem cost_only_in_dailyUsage :
    "totalCost" ∉ summaryResponseKeys ∧ "cost" ∉ breakdownEntryKeys ∧
    "cost" ∈ dailyUsageEntryKeys ∧
    ∀ (recs : List Tx), ∀ e ∈ dailyUsage recs,
      e.cost = ((recs.filter (fun t => dayKey t.createdAt = e.day)).map
        (fun t => (t.tokenValue.getD 0).natAbs)).sum := by
  refine ⟨by decide, by decide, by decide, ?_⟩
  intro recs e he
  rw [dailyUsage] at he
  have he2 := (List.mem_insertionSort dayLE).mp he
  obtain ⟨k, hk, rfl⟩ := List.mem_map.mp he2
  rfl

/-- Witness for C2 (amended) on a one-record ledger. -/
theorem cost_only_in_dailyUsage_witness :
    DailyEntry.mk 0 4 2 ∈ dailyUsage [tx0] ∧
    (DailyEntry.mk 0 4 2).cost =
      (([tx0].filter (fun t =>
        dayKey t.createdAt = (DailyEntry.mk 0 4 2).day)).map
          (fun t => (t.tokenValue.getD 0).natAbs)).sum :=
  ⟨by decide, cost_only_in_dailyUsage.2.2.2 [tx0] _ (by decide)⟩

/-- The duration of a generation in milliseconds (0 when no start time was
recorded, or when the recorded start time 0 is falsy), so that
`durationOf st e = durationMs st e / 1000` seconds. -/
def durationMs (st : Option Int) (e : Int) : Int :=
  match st with
  | some s => if s = 0 then 0 else e - s
  | none => 0

/-- `durationOf` is the millisecond duration scaled to seconds. -/
theorem durationOf_eq_ms (st : Option Int) (e : Int) :
    durationOf st e = ((durationMs st e : Int) : ℚ) / 1000 := by
  cases st with
  | none => simp [durationOf, durationMs]
  | some s =>
    by_cases hs : s = 0 <;> simp [durationOf, durationMs, hs]

/-- C3 counterexample: completion variant 2 publishes `finalStats` for a
0.3-second generation of 48 characters (start time 1 ms, end time 301 ms),
even though the duration is at most half a second. -/
theorem short_generation_publishes :
    (completeV2 (some 1) 301 48).isSome = true ∧
    durationMs (some 1) 301 ≤ 500 := by
  refine ⟨?_, by decide⟩
  simp only [completeV2, durationOf, estimateTokens]
  norm_num

/-- C3 (amended): completion variant 1 never publishes `finalStats` when the
duration is at most half a second (500 ms); completion variant 2 publishes
whenever the duration is positive and the token estimate is positive, with
no half-second floor. -/
theorem finalStats_duration_threshold (st : Option Int) (e : Int) (len : Nat) :
    (durationMs st e ≤ 500 → completeV1 st e len = none) ∧
    (completeV2 st e len ≠ none ↔
      0 < durationMs st e ∧ 0 < estimateTokens len) := by
  have hlt : ((1 / 2 : ℚ) < durationOf st e) ↔ 500 < durationMs st e := by
    rw [durationOf_eq_ms, lt_div_iff₀ (by norm_num : (0 : ℚ) < 1000)]
    constructor
    · intro hcast
      have : (500 : ℚ) < ((durationMs st e : Int) : ℚ) := by linarith
      exact_mod_cast this
    · intro hcast
      have : (500 : ℚ) < ((durationMs st e : Int) : ℚ) := by exact_mod_cast hcast
      linarith
  have hpos : (0 < durationOf st e) ↔ 0 < durationMs st e := by
    rw [durationOf_eq_ms, lt_div_iff₀ (by norm_num : (0 : ℚ) < 1000)]
    constructor
    · intro hcast
      have : (0 : ℚ) < ((durationMs st e : Int) : ℚ) := by linarith
      exact_mod_cast this
    · intro hcast
      have : (0 : ℚ) < ((durationMs st e : Int) : ℚ) := by exact_mod_cast hcast
      linarith
  constructor
  · intro hd
    simp only [completeV1]
    by_cases h0 : len = 0
    · rw [if_pos h0]
    · rw [if_neg h0, if_neg]
      rintro ⟨hgt, -⟩
      have := hlt.mp hgt
      omega
  · simp only [completeV2]
    by_cases hc : 0 < durationMs st e ∧ 0 < estimateTokens len
    · rw [if_pos ⟨hpos.mpr hc.1, hc.2⟩]
      simpa using hc
    · rw [if_neg]
      · simpa using hc
      · rintro ⟨hgt, htok⟩
        exact hc ⟨hpos.mp hgt, htok⟩

/-- Witness for C3 (amended): a 0.2-second, 4-character generation (start
time 1 ms, end time 201 ms) leaves variant 1 silent, and variant 2's
publication is characterized. -/
theorem finalStats_duration_threshold_witness :
    completeV1 (some 1) 201 4 = none ∧
    (completeV2 (some 1) 201 4 ≠ none ↔
      0 < durationMs (some 1) 201 ∧ 0 < estimateTokens 4) :=
  ⟨(finalStats_duration_threshold (some 1) 201 4).1 (by decide),
    (finalStats_duration_threshold (some 1) 201 4).2⟩

/-- Millisecond time difference between the newest and the oldest sample of
a window. -/
def timeDiffMs (h : List Sample) : Int :=
  (h.getLastD (Sample.mk 0 0)).time - (h.headD (Sample.mk 0 0)).time

/-- Seconds between the newest and the oldest sample of a window, as the
code computes it. -/
def timeDiffQ (h : List Sample) : ℚ := ((timeDiffMs h : Int) : ℚ) / 1000

/-- Token difference between the newest and the oldest sample of a window. -/
def tokenDiffZ (h : List Sample) : Int :=
  ((h.getLastD (Sample.mk 0 0)).tokens : Int) - ((h.headD (Sample.mk 0 0)).tokens : Int)

/-- The window's second-denominated time difference is positive exactly when
its millisecond difference is. -/
theorem timeDiffQ_pos_iff (h : List Sample) :
    0 < timeDiffQ h ↔ 0 < timeDiffMs h := by
  rw [timeDiffQ, lt_div_iff₀ (by norm_num : (0 : ℚ) < 1000)]
  constructor
  · intro hcast
    have : (0 : ℚ) < ((timeDiffMs h : Int) : ℚ) := by linarith
    exact_mod_cast this
  · intro hcast
    have : (0 : ℚ) < ((timeDiffMs h : Int) : ℚ) := by exact_mod_cast hcast
    linarith

/-- Rounding a non-negative rational in JavaScript fashion is non-negative. -/
theorem jsRound_nonneg (q : ℚ) (hq : 0 ≤ q) : 0 ≤ jsRound q := by
  rw [jsRound, Int.le_floor]
  push_cast
  linarith

/-- With fewer than 2 samples the instantaneous rate is 0. -/
theorem tpsOf_small (h : List Sample) (hlen : h.length < 2) : tpsOf h = 0 := by
  simp only [tpsOf]
  rw [if_pos hlen]

/-- With a non-positive time difference the instantaneous rate is 0. -/
theorem tpsOf_nonpos_time (h : List Sample) (hlen : 2 ≤ h.length)
    (hle : timeDiffMs h ≤ 0) : tpsOf h = 0 := by
  have hleQ : timeDiffQ h ≤ 0 := by
    rw [timeDiffQ, div_le_iff₀ (by norm_num : (0 : ℚ) < 1000)]
    have : ((timeDiffMs h : Int) : ℚ) ≤ 0 := by exact_mod_cast hle
    linarith
  simp only [tpsOf]
  simp only [timeDiffQ, timeDiffMs] at hleQ
  rw [if_neg (by omega), if_pos hleQ]

/-- With at least 2 samples and a positive time difference the rate is the
rounded quotient, with no clamping. -/
theorem tpsOf_of_pos (h : List Sample) (hlen : 2 ≤ h.length)
    (hgt : 0 < timeDiffMs h) :
    tpsOf h = jsRound ((tokenDiffZ h : ℚ) / timeDiffQ h) := by
  have hgtQ : 0 < timeDiffQ h := (timeDiffQ_pos_iff h).mpr hgt
  simp only [tpsOf]
  simp only [timeDiffQ, timeDiffMs] at hgtQ
  rw [if_neg (by omega), if_neg (not_le.mpr hgtQ)]
  simp only [timeDiffQ, timeDiffMs, tokenDiffZ]

/-- C4 (amended): after push-and-trim, the rate is 0 with fewer than 2
samples; with at least 2 samples it is 0 when the time difference is
non-positive and otherwise `round(tokenDiff / timeDiff)` — unclamped; when
the token count has not decreased over the window, the rate coincides with
the spec's clamped formula and is non-negative. -/
theorem calculateTps_characterization (history : List Sample) (now : Int)
    (ct : Nat) :
    (calculateTps history now ct).1 = tpsOf (pushSample history now ct) ∧
    ((pushSample history now ct).length < 2 →
      tpsOf (pushSample history now ct) = 0) ∧
    (2 ≤ (pushSample history now ct).length →
      timeDiffMs (pushSample history now ct) ≤ 0 →
      tpsOf (pushSample history now ct) = 0) ∧
    (2 ≤ (pushSample history now ct).length →
      0 < timeDiffMs (pushSample history now ct) →
      tpsOf (pushSample history now ct) =
        jsRound ((tokenDiffZ (pushSample history now ct) : ℚ) /
          timeDiffQ (pushSample history now ct))) ∧
    (2 ≤ (pushSample history now ct).length →
      0 < timeDiffMs (pushSample history now ct) →
      0 ≤ tokenDiffZ (pushSample history now ct) →
      tpsOf (pushSample history now ct) =
        claimTps (pushSample history now ct) ∧
      0 ≤ tpsOf (pushSample history now ct)) := by
  refine ⟨rfl, tpsOf_small _, tpsOf_nonpos_time _, tpsOf_of_pos _, ?_⟩
  intro hlen hgt htok
  have hgtQ : 0 < timeDiffQ (pushSample history now ct) :=
    (timeDiffQ_pos_iff _).mpr hgt
  have hq : 0 ≤ (tokenDiffZ (pushSample history now ct) : ℚ) /
      timeDiffQ (pushSample history now ct) :=
    div_nonneg (by exact_mod_cast htok) (le_of_lt hgtQ)
  have hround := jsRound_nonneg _ hq
  have hcode := tpsOf_of_pos _ hlen hgt
  refine ⟨?_, by rw [hcode]; exact hround⟩
  rw [hcode]
  have hlen2 : ¬((pushSample history now ct).length < 2) := by omega
  simp only [claimTps, timeDiffQ, timeDiffMs, tokenDiffZ] at hgtQ hround ⊢
  rw [if_neg hlen2, if_neg (ne_of_gt hgtQ), max_eq_right hround]

/-- Witness for C4 (amended) on the window reached from a 0-token sample at
time 0 by sampling 25 tokens at time 1000. -/
theorem calculateTps_characterization_witness :
    tpsOf (pushSample [Sample.mk 0 0] 1000 25) =
      claimTps (pushSample [Sample.mk 0 0] 1000 25) ∧
    0 ≤ tpsOf (pushSample [Sample.mk 0 0] 1000 25) :=
  (calculateTps_characterization [Sample.mk 0 0] 1000 25).2.2.2.2
    (by decide) (by decide) (by decide)

/-- C4 counterexample: on the window reached from one sample of 100 tokens
at time 0 by sampling 50 tokens at time 1000, the code returns −50 — a
negative rate — while the spec's formula clamps negatives to 0. -/
theorem tps_negative_not_clamped :
    (calculateTps [Sample.mk 0 100] 1000 50).1 = -50 ∧
    claimTps (pushSample [Sample.mk 0 100] 1000 50) = 0 ∧
    (calculateTps [Sample.mk 0 100] 1000 50).1 < 0 := by
  have hwin : pushSample [Sample.mk 0 100] 1000 50 =
      [Sample.mk 0 100, Sample.mk 1000 50] := by decide
  have hcode : (calculateTps [Sample.mk 0 100] 1000 50).1 = -50 := by
    have h1 : (calculateTps [Sample.mk 0 100] 1000 50).1 =
        tpsOf (pushSample [Sample.mk 0 100] 1000 50) := rfl
    rw [h1, tpsOf_of_pos _ (by rw [hwin]; decide) (by rw [hwin]; decide), hwin]
    have harg : ((tokenDiffZ [Sample.mk 0 100, Sample.mk 1000 50] : Int) : ℚ) /
        timeDiffQ [Sample.mk 0 100, Sample.mk 1000 50] = -50 := by
      norm_num [tokenDiffZ, timeDiffQ, timeDiffMs, List.getLastD, List.headD]
    rw [harg, jsRound]
    norm_num
  refine ⟨hcode, ?_, by rw [hcode]; norm_num⟩
  rw [hwin]
  simp only [claimTps, jsRound]
  norm_num [List.getLastD, List.headD]

/-- C5 counterexample: `limit = 0` reaches the persistence layer as "no
limit", so a 1001-record matching set comes back whole — more than 1000
records — and a negative offset is not clamped to 0 but fails the query. -/
theorem limit_zero_unbounded :
    (listTransactions (List.replicate 1001 tx0) 0 0).map
      (fun p => p.1.length) = some 1001 ∧
    listTransactions [] 100 (-1) = none := by
  constructor
  · have hlen : (sortByCreatedAtDesc (List.replicate 1001 tx0)).length = 1001 := by
      rw [sortByCreatedAtDesc, List.length_insertionSort, List.length_replicate]
    have hmain : listTransactions (List.replicate 1001 tx0) 0 0 =
        some (sortByCreatedAtDesc (List.replicate 1001 tx0), 1001) := by
      rw [listTransactions, if_neg (by norm_num)]
      have h1 : applyLimit (min (0 : Int) 1000)
          ((sortByCreatedAtDesc (List.replicate 1001 tx0)).drop (0 : Int).toNat) =
          sortByCreatedAtDesc (List.replicate 1001 tx0) := by
        rw [show (min (0 : Int) 1000) = 0 by norm_num, applyLimit, if_pos rfl,
          show ((0 : Int).toNat) = 0 from rfl, List.drop_zero]
      rw [h1, List.length_replicate]
    rw [hmain]
    simp only [Option.map_some']
    rw [hlen]
  · rw [listTransactions, if_pos (by norm_num)]

/-- C5 (amended): the effective limit is `min(limit, 1000)` — clamped only
from above.  For a supplied `limit ≥ 1` and `offset ≥ 0` at most
`min(limit, 1000) ≤ 1000` records are returned, but `limit = 0` disables the
cap entirely and a negative offset fails the query instead of being clamped
to 0. -/
theorem list_limit_cap (recs : List Tx) (limit offset : Int)
    (hl : 1 ≤ limit) (ho : 0 ≤ offset) :
    ∃ page, listTransactions recs limit offset = some (page, recs.length) ∧
      page.length ≤ (min limit 1000).toNat ∧
      (min limit 1000).toNat ≤ 1000 := by
  have hmain : listTransactions recs limit offset =
      some (applyLimit (min limit 1000)
        ((sortByCreatedAtDesc recs).drop offset.toNat), recs.length) := by
    rw [listTransactions, if_neg (not_lt.mpr ho)]
  refine ⟨_, hmain, ?_, by omega⟩
  have hne : min limit 1000 ≠ 0 := by omega
  rw [applyLimit, if_neg hne]
  calc (((sortByCreatedAtDesc recs).drop offset.toNat).take
        (min limit 1000).natAbs).length
      ≤ (min limit 1000).natAbs := List.length_take_le _ _
    _ = (min limit 1000).toNat := by omega

/-- Witness for C5 (amended) at `limit = 1`, `offset = 0`. -/
theorem list_limit_cap_witness :
    ∃ page, listTransactions [] 1 0 = some (page, ([] : List Tx).length) ∧
      page.length ≤ (min (1 : Int) 1000).toNat ∧
      (min (1 : Int) 1000).toNat ≤ 1000 :=
  list_limit_cap [] 1 0 (by decide) (by decide)

end LibreChat
